import Mathlib

/-
Verification of the upstream-mediation core of the dns-api-go repository:
shallow embedding of the credential store, the request executor, the generic
entity gateway, the record lookup dispatch and the CIDR parent-discovery probe,
with theorems settling the specified behavioural claims.
-/

namespace DnsApi

/-- A Go string, modelled as its list of characters. -/
abbrev GoStr := List Char

/-- Translation of common.Contains (internal/common/helpers.go): linear scan of a
string slice for an item. -/
def Contains : List GoStr → GoStr → Bool
  | [], _ => false
  | v :: rest, item => if v = item then true else Contains rest item

/-- Translation of common.ConvertToSeparatedString: an empty map gives the empty
string; otherwise the key=value fragments are joined with the separator (the
source passes one-character separators at every call site modelled here). -/
def ConvertToSeparatedString (array : List (GoStr × GoStr)) (separator : Char) :
    GoStr :=
  if array = [] then [] else
  List.intercalate [separator] (array.map fun kv => kv.1 ++ '=' :: kv.2)

/-- Core of strings.SplitN(s, sep, 2): the fragment before the first separator,
and the remainder after it when the separator occurs at all. -/
def splitN2Core (sep : Char) : GoStr → GoStr × Option GoStr
  | [] => ([], none)
  | c :: rest =>
    if c = sep then ([], some rest)
    else
      let r := splitN2Core sep rest
      (c :: r.1, r.2)

/-- Translation of strings.SplitN(s, sep, 2): one fragment when the separator is
absent, otherwise the fragments before and after its first occurrence. -/
def splitN2 (sep : Char) (s : GoStr) : List GoStr :=
  match splitN2Core sep s with
  | (before, none) => [before]
  | (before, some after) => [before, after]

/-- Go map assignment m[k] = v on the association-list model of a Go map:
overwrite the existing binding when the key is present, else append. -/
def mapInsert : List (GoStr × GoStr) → GoStr → GoStr → List (GoStr × GoStr)
  | [], k, v => [(k, v)]
  | kv :: rest, k, v =>
    if kv.1 = k then (k, v) :: rest else kv :: mapInsert rest k v

/-- Translation of common.ConvertToMap: the empty string gives the empty map;
otherwise split on the separator and insert every fragment that splits into a
key and a value at its first equals sign, skipping the rest. -/
def ConvertToMap (inputString : GoStr) (separator : Char) :
    List (GoStr × GoStr) :=
  if inputString = [] then [] else
  (inputString.splitOn separator).foldl
    (fun resultMap pair =>
      match splitN2 '=' pair with
      | [k, v] => mapInsert resultMap k v
      | _ => resultMap)
    []

/-- Entity type tag from internal/types/types.go. -/
def CNAMERECORD : GoStr := "AliasRecord".toList

/-- Entity type tag from internal/types/types.go. -/
def CONFIGURATION : GoStr := "Configuration".toList

/-- Entity type tag from internal/types/types.go. -/
def EXTERNALHOST : GoStr := "ExternalHostRecord".toList

/-- Entity type tag from internal/types/types.go. -/
def HOSTRECORD : GoStr := "HostRecord".toList

/-- Entity type tag from internal/types/types.go. -/
def IP4ADDRESS : GoStr := "IP4Address".toList

/-- Entity type tag from internal/types/types.go. -/
def MACADDRESS : GoStr := "MACAddress".toList

/-- Entity type tag from internal/types/types.go. -/
def MACPOOL : GoStr := "MACPool".toList

/-- Translation of models.Entity: the canonical local representation; the
properties Go map is modelled as an association list. -/
structure Entity where
  id : Int
  name : GoStr
  type : GoStr
  properties : List (GoStr × GoStr)
deriving DecidableEq

/-- Translation of models.BluecatEntity: the upstream wire form, with the three
nullable fields modelled as Option. -/
structure BluecatEntity where
  id : Int
  name : Option GoStr
  type : Option GoStr
  properties : Option GoStr
deriving DecidableEq

/-- Translation of BluecatEntity.IsEmpty: the id is zero and all three optional
fields are absent. -/
def BluecatEntity.IsEmpty (er : BluecatEntity) : Bool :=
  er.id == 0 && er.name.isNone && er.type.isNone && er.properties.isNone

/-- Translation of BluecatEntity.ToEntity: an absent name becomes the empty
string and absent properties become the empty map, while the type field is
dereferenced unconditionally; dereferencing an absent type (a nil pointer
dereference in Go) is modelled as none. -/
def BluecatEntity.toEntity (er : BluecatEntity) : Option Entity :=
  match er.type with
  | none => none
  | some t =>
    let name : GoStr :=
      match er.name with
      | some n => n
      | none => []
    let properties : List (GoStr × GoStr) :=
      match er.properties with
      | some p => ConvertToMap p '|'
      | none => []
    some ⟨er.id, name, t, properties⟩

/-- Translation of Entity.ToBluecatJSON at the wire-struct level: every field is
emitted, with the properties map joined into a pipe-separated string. -/
def Entity.toBluecatEntity (e : Entity) : BluecatEntity :=
  ⟨e.id, some e.name, some e.type, some (ConvertToSeparatedString e.properties '|')⟩

/-- Outcome of BaseService.GetEntity on a decoded upstream response: a normalized
entity, the not-found error, or a crash from dereferencing an absent type. -/
inductive GetEntityOutcome where
  | ok (e : Entity)
  | errEntityNotFound
  | crash
deriving DecidableEq

/-- Translation of BaseService.GetEntity (internal/services/entity_service.go)
given the decoded wire response of the lookup request: an empty response yields
ErrEntityNotFound, any other response is converted to an Entity. -/
def getEntity (resp : BluecatEntity) : GetEntityOutcome :=
  if resp.IsEmpty then .errEntityNotFound
  else
    match resp.toEntity with
    | some e => .ok e
    | none => .crash

/-- Translation of services.ALLOWDELETE: the fixed allow-list of deletable
entity types. -/
def ALLOWDELETE : List GoStr :=
  [HOSTRECORD, EXTERNALHOST, CNAMERECORD, IP4ADDRESS, MACADDRESS, MACPOOL]

/-- Translation of the allow-list scan inside DeleteEntity. -/
def isAllowedToDelete (t : GoStr) : Bool :=
  ALLOWDELETE.any fun allowedType => allowedType = t

/-- Result of BaseService.DeleteEntity. -/
inductive DeleteResult where
  | errNotFound
  | errCrash
  | errTypeMismatch (expectedTypes : List GoStr) (actualType : GoStr)
  | errDeleteNotAllowed (t : GoStr)
  | deleted
deriving DecidableEq

/-- Translation of BaseService.DeleteEntity given the decoded response of the
initial entity fetch: propagate fetch errors, then apply the expected-type
guard, then the allow-list guard, and only then issue the delete request; the
Bool records whether the delete HTTP request is issued. -/
def deleteEntity (resp : BluecatEntity) (expectedTypes : List GoStr) :
    DeleteResult × Bool :=
  match getEntity resp with
  | .errEntityNotFound => (.errNotFound, false)
  | .crash => (.errCrash, false)
  | .ok entity =>
    if 0 < expectedTypes.length ∧ Contains expectedTypes entity.type = false then
      (.errTypeMismatch expectedTypes entity.type, false)
    else if isAllowedToDelete entity.type = false then
      (.errDeleteNotAllowed entity.type, false)
    else
      (.deleted, true)

/-- Translation of server.getToken (internal/api/helpers.go), as the atomic state
transition performed under the token lock: given the outcome a login exchange
would have and the cached token, return the call result, the new cached token
and the number of login exchanges performed. -/
def getToken (generateAuthToken : Except GoStr GoStr) (token : GoStr) :
    Except GoStr GoStr × GoStr × Nat :=
  if token = [] then
    match generateAuthToken with
    | .error e => (.error e, token, 1)
    | .ok t => (.ok t, t, 1)
  else (.ok token, token, 0)

/-- Translation of server.MakeRequest (internal/api/helpers.go), abstracted over
the stream of upstream HTTP responses (status code and body): each attempt
consumes the next response; on a 401 the cached token is cleared and the whole
call recurses with no depth bound, so a further response is consumed. A first
component of none means the provided responses were exhausted with the call
still running, about to issue yet another request; the Nat counts the requests
issued so far. -/
def makeRequestRun : List (Nat × GoStr) → Option (Except (Nat × GoStr) GoStr) × Nat
  | [] => (none, 0)
  | (statusCode, body) :: rest =>
    if statusCode = 401 then
      let r := makeRequestRun rest
      (r.1, r.2 + 1)
    else if statusCode ≠ 200 then (some (.error (statusCode, body)), 1)
    else (some (.ok body), 1)

/-- A parsed CIDR as produced by net.ParseCIDR: the masked network address and
the mask, both as byte lists. -/
structure Cidr where
  ip : List Nat
  mask : List Nat
deriving DecidableEq

/-- Translation of net.IP.Mask: bytewise AND of address and mask. -/
def maskIP (ip mask : List Nat) : List Nat :=
  List.zipWith Nat.land ip mask

/-- Translation of net.IPNet.Contains for same-length addresses: the candidate
masked with the network mask equals the network address. -/
def cidrContains (c : Cidr) (ip : List Nat) : Bool :=
  decide (maskIP ip c.mask = c.ip)

/-- Carry step of incrementIP on the reversed byte list: increment the low byte
modulo 256 and carry into the next byte exactly when it wrapped to zero. -/
def incBytes : List Nat → List Nat
  | [] => []
  | b :: rest =>
    if 0 < (b + 1) % 256 then (b + 1) % 256 :: rest
    else (b + 1) % 256 :: incBytes rest

/-- Translation of incrementIP (internal/api/ip_address_handlers.go): increment
the last byte, carrying toward the front while bytes wrap to zero. -/
def incrementIP (ip : List Nat) : List Nat :=
  (incBytes ip.reverse).reverse

/-- Error message returned by parentIdFromCidr when the probe bound is exhausted. -/
def noParentFoundMsg : GoStr := "no valid parent ID found in the CIDR range".toList

/-- Translation of the probe loop of parentIdFromCidr, abstracted over the two
upstream probes (GetIpAddress yielding the entity id, and GetParentID): the
loop guard checks network membership, the body gives up once 10 candidates have
been probed, and the parent id of the first candidate for which both probes
succeed is returned at once. The Nat counts probed candidates. -/
def parentIdLoop (getIpAddress : List Nat → Option Int)
    (getParentID : Int → Option Int) (c : Cidr) (ip : List Nat) (counter : Nat) :
    Except GoStr Int × Nat :=
  if cidrContains c ip = false then (.error noParentFoundMsg, 0)
  else if _h10 : 10 ≤ counter then (.error noParentFoundMsg, 0)
  else
    match getIpAddress ip with
    | none =>
      let r := parentIdLoop getIpAddress getParentID c (incrementIP ip) (counter + 1)
      (r.1, r.2 + 1)
    | some entityId =>
      match getParentID entityId with
      | some parentId => (.ok parentId, 1)
      | none =>
        let r := parentIdLoop getIpAddress getParentID c (incrementIP ip) (counter + 1)
        (r.1, r.2 + 1)
  termination_by 10 - counter
  decreasing_by
    all_goals omega

/-- Translation of parentIdFromCidr on an already-parsed CIDR: the loop starts at
the masked base address with the probe counter at zero. -/
def parentIdFromCidr (getIpAddress : List Nat → Option Int)
    (getParentID : Int → Option Int) (c : Cidr) : Except GoStr Int × Nat :=
  parentIdLoop getIpAddress getParentID c (maskIP c.ip c.mask) 0

/-- A probed candidate fails when its address lookup errs, or when the lookup
succeeds but the subsequent parent lookup errs. -/
def probeFails (getIpAddress : List Nat → Option Int)
    (getParentID : Int → Option Int) (ip : List Nat) : Bool :=
  match getIpAddress ip with
  | none => true
  | some entityId => (getParentID entityId).isNone

/-- The lookup strategy selected by RecordService.getExternalRecord, carrying
the arguments the source passes to the selected helper. -/
inductive ExternalLookup where
  | byName (name : GoStr) (entityType : GoStr) (viewId : Int) (includeHA : Bool)
  | byKeyword (keyword : GoStr) (start : Int) (count : Int) (includeHA : Bool)
      (types : List GoStr)
  | listing (start : Int) (count : Int) (viewId : Int) (entityType : GoStr)
      (includeHA : Bool)
deriving DecidableEq

/-- Translation of RecordService.getExternalRecord (internal/services/
record_service.go): a non-empty name selects the exact-name lookup, otherwise a
non-empty keyword selects the keyword search, otherwise the unfiltered listing. -/
def getExternalRecord (name keyword : GoStr) (start count : Int)
    (includeHA : Bool) (viewId : Int) : ExternalLookup :=
  if name ≠ [] then .byName name EXTERNALHOST viewId includeHA
  else if keyword ≠ [] then .byKeyword keyword start count includeHA [EXTERNALHOST]
  else .listing start count viewId EXTERNALHOST includeHA

/-- Claim C3: with a non-empty expected-type set, a fetched entity whose type is
not a member makes DeleteEntity fail with the type-mismatch error without
issuing the delete request, and the delete request is issued only when the
fetch succeeded, the expected-type guard passed and the allow-list guard
passed. -/
theorem deleteEntity_typeGuard :
    (∀ (resp : BluecatEntity) (e : Entity) (ets : List GoStr),
      ets ≠ [] → getEntity resp = .ok e → Contains ets e.type = false →
      deleteEntity resp ets = (.errTypeMismatch ets e.type, false)) ∧
    (∀ (resp : BluecatEntity) (ets : List GoStr),
      (deleteEntity resp ets).2 = true →
      ∃ e, getEntity resp = .ok e ∧
        (ets = [] ∨ Contains ets e.type = true) ∧
        isAllowedToDelete e.type = true) := by
  constructor
  · intro resp e ets hne hok hnc
    have hlen : 0 < ets.length := List.length_pos.mpr hne
    simp only [deleteEntity, hok]
    rw [if_pos ⟨hlen, hnc⟩]
  · intro resp ets h
    unfold deleteEntity at h
    cases hge : getEntity resp with
    | errEntityNotFound => rw [hge] at h; simp at h
    | crash => rw [hge] at h; simp at h
    | ok e =>
      rw [hge] at h
      dsimp only at h
      split_ifs at h with h1 h2
      refine ⟨e, rfl, ?_, ?_⟩
      · rcases Decidable.not_and_iff_or_not.mp h1 with hl | hc
        · exact Or.inl (List.length_eq_zero.mp (by omega))
        · exact Or.inr (by simpa using hc)
      · simpa using h2

/-- Claim C3 witness: deleting an entity fetched with type ExternalHostRecord
under the expectation HostRecord fails with the mismatch error and issues no
delete call. -/
theorem deleteEntity_typeGuard_witness :
    deleteEntity ⟨7, some ("ext".toList), some EXTERNALHOST, none⟩ [HOSTRECORD] =
      (.errTypeMismatch [HOSTRECORD] EXTERNALHOST, false) :=
  deleteEntity_typeGuard.1 _ ⟨7, "ext".toList, EXTERNALHOST, []⟩ _ (by decide)
    (by decide) (by decide)

/-- Claim C4: with an empty expected-type set, DeleteEntity on a fetched entity
whose type is outside the fixed allow-list fails with the delete-not-allowed
error and issues no delete request, while a type inside the allow-list makes
the delete request be issued. -/
theorem deleteEntity_allowlist :
    ∀ (resp : BluecatEntity) (e : Entity), getEntity resp = .ok e →
      (e.type ∉ ALLOWDELETE →
        deleteEntity resp [] = (.errDeleteNotAllowed e.type, false)) ∧
      (e.type ∈ ALLOWDELETE → deleteEntity resp [] = (.deleted, true)) := by
  intro resp e hok
  have hiff : isAllowedToDelete e.type = true ↔ e.type ∈ ALLOWDELETE := by
    unfold isAllowedToDelete
    rw [List.any_eq_true]
    constructor
    · rintro ⟨x, hx, hxe⟩
      have hxe2 : x = e.type := by simpa using hxe
      rwa [← hxe2]
    · intro hx
      exact ⟨e.type, hx, by simp⟩
  constructor
  · intro hnotin
    have hfalse : isAllowedToDelete e.type = false := by
      rw [← Bool.not_eq_true, hiff]
      exact hnotin
    have hng : ¬(0 < ([] : List GoStr).length ∧ Contains [] e.type = false) := by
      simp
    simp only [deleteEntity, hok]
    rw [if_neg hng, if_pos hfalse]
  · intro hin
    have htrue : isAllowedToDelete e.type = true := hiff.mpr hin
    have hng : ¬(0 < ([] : List GoStr).length ∧ Contains [] e.type = false) := by
      simp
    have hng2 : ¬isAllowedToDelete e.type = false := by simp [htrue]
    simp only [deleteEntity, hok]
    rw [if_neg hng, if_neg hng2]

/-- Claim C4 witness: with no expected types, deleting a Configuration entity
fails with the delete-not-allowed error and issues no delete call, while
deleting a MACAddress entity issues the delete call. -/
theorem deleteEntity_allowlist_witness :
    deleteEntity ⟨9, none, some CONFIGURATION, none⟩ [] =
      (.errDeleteNotAllowed CONFIGURATION, false) ∧
    deleteEntity ⟨3, none, some MACADDRESS, none⟩ [] = (.deleted, true) :=
  ⟨(deleteEntity_allowlist _ ⟨9, [], CONFIGURATION, []⟩ (by decide)).1 (by decide),
   (deleteEntity_allowlist _ ⟨3, [], MACADDRESS, []⟩ (by decide)).2 (by decide)⟩

/-- Claim C5 (amended): GetEntity fails with ErrEntityNotFound exactly when the
wire entity is empty, and otherwise, whenever the type field is present,
returns the entity with an absent name normalized to the empty string and
absent properties normalized to the empty map; a guard-passing response with an
absent type dereferences the absent field instead of returning, and the
all-absent zero-id response is never returned as an entity. -/
theorem getEntity_emptyGuard :
    ∀ resp : BluecatEntity,
      (getEntity resp = .errEntityNotFound ↔ resp.IsEmpty = true) ∧
      (∀ t, resp.type = some t →
        getEntity resp =
          .ok ⟨resp.id, resp.name.getD [], t,
               (resp.properties.map fun p => ConvertToMap p '|').getD []⟩) := by
  intro resp
  constructor
  · constructor
    · intro h
      by_contra hne
      have hfalse : resp.IsEmpty = false := by
        cases hr : resp.IsEmpty
        · rfl
        · exact absurd hr hne
      rw [getEntity, if_neg (by simp [hfalse])] at h
      cases hte : resp.toEntity <;> rw [hte] at h <;> simp at h
    · intro h
      simp [getEntity, h]
  · intro t ht
    have hfalse : resp.IsEmpty = false := by
      simp [BluecatEntity.IsEmpty, ht]
    obtain ⟨i, n, ty, p⟩ := resp
    simp only at ht
    subst ht
    cases n <;> cases p <;>
      simp [getEntity, BluecatEntity.IsEmpty, BluecatEntity.toEntity,
        Option.getD] at hfalse ⊢

/-- Claim C5 witness: a response with only the name present and zero id is not
empty and normalizes its absent properties to the empty map. -/
theorem getEntity_emptyGuard_witness :
    getEntity ⟨0, some ("n".toList), some HOSTRECORD, none⟩ =
      .ok ⟨0, "n".toList, HOSTRECORD, []⟩ :=
  ((getEntity_emptyGuard _).2 HOSTRECORD (by decide))

/-- Claim C5 counterexample: the wire response with id 1 and all optional fields
absent passes the emptiness guard but makes GetEntity crash on the absent type
field instead of returning a normalized entity. -/
theorem getEntity_absentType_cex :
    BluecatEntity.IsEmpty ⟨1, none, none, none⟩ = false ∧
    getEntity ⟨1, none, none, none⟩ = .crash := by
  constructor <;> decide

/-- Claim C10 (amended): the wire-to-entity conversion is total exactly on
responses whose type field is present, so the emptiness guard alone does not
make the conversion total on everything it admits. -/
theorem toEntity_total_iff_typePresent :
    ∀ resp : BluecatEntity, (∃ e, resp.toEntity = some e) ↔ resp.type ≠ none := by
  intro resp
  cases ht : resp.type <;> simp [BluecatEntity.toEntity, ht]

/-- Claim C10 counterexample: the response with id 2 and every optional field
absent is admitted by the emptiness guard, yet its conversion dereferences the
absent type field rather than producing an entity. -/
theorem toEntity_absentType_cex :
    BluecatEntity.IsEmpty ⟨2, none, none, none⟩ = false ∧
    BluecatEntity.toEntity ⟨2, none, none, none⟩ = none := by
  constructor <;> decide

/-- Claim C9: external-host lookup dispatch selects by parameter precedence: a
non-empty name gives the exact-name lookup with the keyword ignored, otherwise
a non-empty keyword gives the keyword search, otherwise the unfiltered
listing. -/
theorem getExternalRecord_precedence :
    ∀ (name keyword kw2 : GoStr) (start count : Int) (includeHA : Bool)
      (viewId : Int),
      (name ≠ [] →
        getExternalRecord name keyword start count includeHA viewId =
          .byName name EXTERNALHOST viewId includeHA ∧
        getExternalRecord name kw2 start count includeHA viewId =
          getExternalRecord name keyword start count includeHA viewId) ∧
      (name = [] → keyword ≠ [] →
        getExternalRecord name keyword start count includeHA viewId =
          .byKeyword keyword start count includeHA [EXTERNALHOST]) ∧
      (name = [] → keyword = [] →
        getExternalRecord name keyword start count includeHA viewId =
          .listing start count viewId EXTERNALHOST includeHA) := by
  intro name keyword kw2 start count includeHA viewId
  refine ⟨fun hn => ⟨?_, ?_⟩, fun hn hk => ?_, fun hn hk => ?_⟩
  · simp [getExternalRecord, hn]
  · simp [getExternalRecord, hn]
  · simp [getExternalRecord, hn, hk]
  · simp [getExternalRecord, hn, hk]

/-- Claim C9 witness: with a name supplied the lookup is by exact name whatever
the keyword, with only a keyword it is a keyword search, and with neither it is
the unfiltered listing. -/
theorem getExternalRecord_precedence_witness :
    getExternalRecord ("h".toList) ("kw".toList) 0 10 false 5 =
      .byName ("h".toList) EXTERNALHOST 5 false ∧
    getExternalRecord [] ("kw".toList) 0 10 false 5 =
      .byKeyword ("kw".toList) 0 10 false [EXTERNALHOST] ∧
    getExternalRecord [] [] 0 10 false 5 =
      .listing 0 10 5 EXTERNALHOST false :=
  ⟨((getExternalRecord_precedence _ _ ("kw".toList) 0 10 false 5).1
      (by decide)).1,
   (getExternalRecord_precedence [] _ ("kw".toList) 0 10 false 5).2.1 rfl
      (by decide),
   (getExternalRecord_precedence [] [] [] 0 10 false 5).2.2 rfl rfl⟩

/-- Claim C8: a cached token is returned unchanged with no login exchange, and
two consecutive acquisitions starting from an empty cache with a successful
login perform exactly one login exchange in total, both returning that token. -/
theorem getToken_cachedReuse :
    (∀ (generateAuthToken : Except GoStr GoStr) (token : GoStr), token ≠ [] →
      getToken generateAuthToken token = (.ok token, token, 0)) ∧
    (∀ (t : GoStr) (gen2 : Except GoStr GoStr), t ≠ [] →
      getToken (.ok t) [] = (.ok t, t, 1) ∧ getToken gen2 t = (.ok t, t, 0)) := by
  constructor
  · intro gen token h
    simp [getToken, h]
  · intro t gen2 h
    exact ⟨by simp [getToken], by simp [getToken, h]⟩

/-- Claim C8 witness: acquiring from an empty cache logs in once and caches the
token; the next acquisition performs no login and returns it unchanged. -/
theorem getToken_cachedReuse_witness :
    getToken (.ok ("tok".toList)) [] = (.ok ("tok".toList), "tok".toList, 1) ∧
    getToken (.error []) ("tok".toList) =
      (.ok ("tok".toList), "tok".toList, 0) :=
  ⟨(getToken_cachedReuse.2 ("tok".toList) (.error []) (by decide)).1,
   getToken_cachedReuse.1 _ _ (by decide)⟩

/-- Claim C1 evaluation: under a persistently-401 upstream the executor never
terminates with an authentication-rejected error — after any finite stream of
401 responses the call has issued one request per response and is still
recursing, so the re-authentication retry depth is unbounded rather than
bounded by 1. -/
theorem makeRequest_retryUnbounded :
    ∀ rs : List (Nat × GoStr), (∀ r ∈ rs, r.1 = 401) →
      makeRequestRun rs = (none, rs.length) := by
  intro rs h
  induction rs with
  | nil => rfl
  | cons hd tl ih =>
    have h401 : hd.1 = 401 := h hd (List.mem_cons_self _ _)
    have ht : ∀ r ∈ tl, r.1 = 401 := fun r hr => h r (List.mem_cons_of_mem _ hr)
    obtain ⟨code, body⟩ := hd
    simp only at h401
    simp [makeRequestRun, h401, ih ht]

/-- Claim C1 witness: two consecutive 401 responses leave the call still
recursing after two issued requests, with no auth-rejected error produced. -/
theorem makeRequest_retryUnbounded_witness :
    makeRequestRun [(401, []), (401, [])] = (none, 2) :=
  makeRequest_retryUnbounded _ (by decide)

/-- Helper: the probe loop never probes more candidates than its remaining
budget. -/
theorem parentIdLoop_le (getIpAddress : List Nat → Option Int)
    (getParentID : Int → Option Int) (c : Cidr) :
    ∀ (n : Nat) (ip : List Nat) (counter : Nat), counter + n = 10 →
      (parentIdLoop getIpAddress getParentID c ip counter).2 ≤ n := by
  intro n
  induction n with
  | zero =>
    intro ip counter hc
    have h10 : 10 ≤ counter := by omega
    unfold parentIdLoop
    cases hcc : cidrContains c ip <;> simp [hcc, h10]
  | succ n ih =>
    intro ip counter hc
    unfold parentIdLoop
    cases hcc : cidrContains c ip with
    | false => simp [hcc]
    | true =>
      simp only [hcc]
      rw [if_neg (by simp)]
      rw [dif_neg (by omega)]
      have hrec := ih (incrementIP ip) (counter + 1) (by omega)
      cases hg : getIpAddress ip with
      | none =>
        simp [hg]
        omega
      | some entityId =>
        cases hp : getParentID entityId with
        | none =>
          simp [hg, hp]
          omega
        | some parentId => simp [hg, hp]

/-- Helper: when every remaining candidate inside the bound lies in the network
and fails its probe, the loop exhausts the bound with one probe per candidate
and errs with the no-parent message. -/
theorem parentIdLoop_allFail (getIpAddress : List Nat → Option Int)
    (getParentID : Int → Option Int) (c : Cidr) :
    ∀ (n : Nat) (ip : List Nat) (counter : Nat), counter + n = 10 →
      (∀ k, k < n → cidrContains c (incrementIP^[k] ip) = true) →
      (∀ k, k < n → probeFails getIpAddress getParentID (incrementIP^[k] ip) = true) →
      parentIdLoop getIpAddress getParentID c ip counter =
        (.error noParentFoundMsg, n) := by
  intro n
  induction n with
  | zero =>
    intro ip counter hc _ _
    have h10 : 10 ≤ counter := by omega
    unfold parentIdLoop
    cases hcc : cidrContains c ip <;> simp [hcc, h10]
  | succ n ih =>
    intro ip counter hc hin hfail
    have hcc : cidrContains c ip = true := by simpa using hin 0 (Nat.succ_pos n)
    have hpf : probeFails getIpAddress getParentID ip = true := by
      simpa using hfail 0 (Nat.succ_pos n)
    have hrec := ih (incrementIP ip) (counter + 1) (by omega)
      (fun k hk => by
        have hx := hin (k + 1) (by omega)
        simpa [Function.iterate_succ_apply] using hx)
      (fun k hk => by
        have hx := hfail (k + 1) (by omega)
        simpa [Function.iterate_succ_apply] using hx)
    unfold parentIdLoop
    rw [if_neg (by simp [hcc]), dif_neg (by omega)]
    cases hg : getIpAddress ip with
    | none => simp [hrec]
    | some entityId =>
      cases hp : getParentID entityId with
      | some parentId =>
        exfalso
        simp [probeFails, hg, hp] at hpf
      | none => simp [hp, hrec]

/-- Helper: when the first m candidates are in the network but fail their
probes, and candidate m is in the network with both probes succeeding inside
the bound, the loop returns that candidate's parent id after probing exactly
m + 1 addresses. -/
theorem parentIdLoop_firstSuccess (getIpAddress : List Nat → Option Int)
    (getParentID : Int → Option Int) (c : Cidr) :
    ∀ (m : Nat) (ip : List Nat) (counter : Nat) (entityId parentId : Int),
      counter + m < 10 →
      (∀ k, k ≤ m → cidrContains c (incrementIP^[k] ip) = true) →
      (∀ k, k < m → probeFails getIpAddress getParentID (incrementIP^[k] ip) = true) →
      getIpAddress (incrementIP^[m] ip) = some entityId →
      getParentID entityId = some parentId →
      parentIdLoop getIpAddress getParentID c ip counter = (.ok parentId, m + 1) := by
  intro m
  induction m with
  | zero =>
    intro ip counter entityId parentId hlt hin _ hgip hgp
    have hcc : cidrContains c ip = true := by simpa using hin 0 (Nat.le_refl 0)
    have hgip0 : getIpAddress ip = some entityId := by simpa using hgip
    unfold parentIdLoop
    rw [if_neg (by simp [hcc]), dif_neg (by omega)]
    simp [hgip0, hgp]
  | succ m ih =>
    intro ip counter entityId parentId hlt hin hfail hgip hgp
    have hcc : cidrContains c ip = true := by simpa using hin 0 (Nat.zero_le _)
    have hpf : probeFails getIpAddress getParentID ip = true := by
      simpa using hfail 0 (Nat.succ_pos m)
    have hrec := ih (incrementIP ip) (counter + 1) entityId parentId (by omega)
      (fun k hk => by
        have hx := hin (k + 1) (by omega)
        simpa [Function.iterate_succ_apply] using hx)
      (fun k hk => by
        have hx := hfail (k + 1) (by omega)
        simpa [Function.iterate_succ_apply] using hx)
      (by rw [← Function.iterate_succ_apply]; exact hgip) hgp
    unfold parentIdLoop
    rw [if_neg (by simp [hcc]), dif_neg (by omega)]
    cases hg : getIpAddress ip with
    | none => simp [hrec]
    | some e0 =>
      cases hp : getParentID e0 with
      | some p0 =>
        exfalso
        simp [probeFails, hg, hp] at hpf
      | none => simp [hp, hrec]

/-- Claim C2: the CIDR probe starts from the masked base address and probes at
most 10 candidates, and when the network keeps containing the first 10
candidates while every address lookup fails, it terminates with the no-parent
error after exactly 10 probes. -/
theorem parentIdFromCidr_boundedExhaustion :
    (∀ (getIpAddress : List Nat → Option Int) (getParentID : Int → Option Int)
      (c : Cidr), (parentIdFromCidr getIpAddress getParentID c).2 ≤ 10) ∧
    (∀ (getIpAddress : List Nat → Option Int) (getParentID : Int → Option Int)
      (c : Cidr),
      (∀ k, k < 10 →
        cidrContains c (incrementIP^[k] (maskIP c.ip c.mask)) = true) →
      (∀ k, k < 10 →
        getIpAddress (incrementIP^[k] (maskIP c.ip c.mask)) = none) →
      parentIdFromCidr getIpAddress getParentID c =
        (.error noParentFoundMsg, 10)) := by
  constructor
  · intro gi gp c
    exact parentIdLoop_le gi gp c 10 _ 0 rfl
  · intro gi gp c hin hfail
    exact parentIdLoop_allFail gi gp c 10 _ 0 rfl hin
      (fun k hk => by simp [probeFails, hfail k hk])

/-- Claim C2 witness: a /24 network where no candidate address is registered
fails with the no-parent error after exactly 10 probes. -/
theorem parentIdFromCidr_boundedExhaustion_witness :
    parentIdFromCidr (fun _ => none) (fun _ => none)
      ⟨[10, 0, 0, 0], [255, 255, 255, 0]⟩ = (.error noParentFoundMsg, 10) :=
  parentIdFromCidr_boundedExhaustion.2 _ _ _ (by decide) (fun k hk => rfl)

/-- Claim C7: the first candidate for which both the address probe and the
parent probe succeed yields the returned parent id, and no later candidate is
probed — the loop probes exactly that candidate's index plus one addresses. -/
theorem parentIdFromCidr_firstSuccess :
    ∀ (getIpAddress : List Nat → Option Int) (getParentID : Int → Option Int)
      (c : Cidr) (m : Nat) (entityId parentId : Int),
      m < 10 →
      (∀ k, k ≤ m →
        cidrContains c (incrementIP^[k] (maskIP c.ip c.mask)) = true) →
      (∀ k, k < m → probeFails getIpAddress getParentID
        (incrementIP^[k] (maskIP c.ip c.mask)) = true) →
      getIpAddress (incrementIP^[m] (maskIP c.ip c.mask)) = some entityId →
      getParentID entityId = some parentId →
      parentIdFromCidr getIpAddress getParentID c = (.ok parentId, m + 1) := by
  intro gi gp c m entityId parentId hm hin hfail hgip hgp
  exact parentIdLoop_firstSuccess gi gp c m _ 0 entityId parentId (by omega)
    hin hfail hgip hgp

/-- Claim C7 witness: on a /29 whose 3rd candidate address is the first with
both probes succeeding, the resolver returns that parent id after exactly 3
probes. -/
theorem parentIdFromCidr_firstSuccess_witness :
    parentIdFromCidr
      (fun ip => if ip = [10, 0, 0, 2] then some 42 else none)
      (fun e => if e = 42 then some 77 else none)
      ⟨[10, 0, 0, 0], [255, 255, 255, 248]⟩ = (.ok 77, 3) :=
  parentIdFromCidr_firstSuccess _ _ _ 2 42 77 (by decide) (by decide) (by decide)
    (by decide) (by decide)

/-- Helper: splitting a key=value fragment at its first equals sign recovers the
key and the value when the key contains no equals sign. -/
theorem splitN2Core_append (k v : GoStr) (h : ('=' : Char) ∉ k) :
    splitN2Core '=' (k ++ '=' :: v) = (k, some v) := by
  induction k with
  | nil => simp [splitN2Core]
  | cons c rest ih =>
    have hc : ¬c = '=' := by
      intro hEq
      exact h (by simp [hEq])
    have hrest : ('=' : Char) ∉ rest := fun hm => h (List.mem_cons_of_mem _ hm)
    simp [splitN2Core, hc, ih hrest]

/-- Helper: splitN2 on a key=value fragment yields the two-element split. -/
theorem splitN2_append (k v : GoStr) (h : ('=' : Char) ∉ k) :
    splitN2 '=' (k ++ '=' :: v) = [k, v] := by
  simp [splitN2, splitN2Core_append k v h]

/-- Helper: inserting a fresh key into the map model appends the binding. -/
theorem mapInsert_fresh (m : List (GoStr × GoStr)) (k v : GoStr)
    (h : ∀ kv ∈ m, kv.1 ≠ k) : mapInsert m k v = m ++ [(k, v)] := by
  induction m with
  | nil => rfl
  | cons kv rest ih =>
    have h1 : ¬kv.1 = k := h kv (List.mem_cons_self _ _)
    simp [mapInsert, h1, ih fun x hx => h x (List.mem_cons_of_mem _ hx)]

/-- Helper: folding the fragment parser of ConvertToMap over encoded key=value
pairs with pairwise-distinct keys rebuilds the association list, provided the
keys contain no equals sign. -/
theorem foldl_parse_fragments (ps : List (GoStr × GoStr)) :
    ∀ acc : List (GoStr × GoStr),
      (∀ kv ∈ ps, ('=' : Char) ∉ kv.1) →
      ((acc ++ ps).map Prod.fst).Nodup →
      (ps.map fun kv => kv.1 ++ '=' :: kv.2).foldl
        (fun resultMap pair =>
          match splitN2 '=' pair with
          | [k, v] => mapInsert resultMap k v
          | _ => resultMap) acc = acc ++ ps := by
  induction ps with
  | nil =>
    intro acc _ _
    simp
  | cons kv rest ih =>
    intro acc hk hnd
    have hfresh : ∀ x ∈ acc, x.1 ≠ kv.1 := by
      intro x hx hEq
      rw [List.map_append, List.nodup_append] at hnd
      exact hnd.2.2 (List.mem_map_of_mem _ hx) (by simp [hEq])
    rw [List.map_cons, List.foldl_cons,
      splitN2_append kv.1 kv.2 (hk kv (List.mem_cons_self _ _))]
    have hstep :
        (match [kv.1, kv.2] with
          | [k, v] => mapInsert acc k v
          | _ => acc) = acc ++ [kv] := by
      simpa using mapInsert_fresh acc kv.1 kv.2 hfresh
    rw [hstep]
    have hnd2 : (((acc ++ [kv]) ++ rest).map Prod.fst).Nodup := by
      rw [List.append_assoc]
      simpa using hnd
    have := ih (acc ++ [kv]) (fun x hx => hk x (List.mem_cons_of_mem _ hx)) hnd2
    simpa [List.append_assoc] using this

/-- Helper: parsing the separated-string encoding of a non-empty association
list with pairwise-distinct keys recovers the list, provided keys contain
neither separator and values do not contain the pair separator. -/
theorem ConvertToMap_ConvertToSeparatedString (ps : List (GoStr × GoStr))
    (hnodup : (ps.map Prod.fst).Nodup)
    (hk : ∀ kv ∈ ps, ('=' : Char) ∉ kv.1 ∧ ('|' : Char) ∉ kv.1)
    (hv : ∀ kv ∈ ps, ('|' : Char) ∉ kv.2) :
    ConvertToMap (ConvertToSeparatedString ps '|') '|' = ps := by
  cases ps with
  | nil => rfl
  | cons p rest =>
    have hpieces : ∀ l ∈ (p :: rest).map fun kv => kv.1 ++ '=' :: kv.2,
        ('|' : Char) ∉ l := by
      intro l hl
      obtain ⟨kv, hkv, rfl⟩ := List.mem_map.mp hl
      intro hmem
      rcases List.mem_append.mp hmem with h1 | h2
      · exact (hk kv hkv).2 h1
      · rcases List.mem_cons.mp h2 with h3 | h4
        · exact absurd h3 (by decide)
        · exact hv kv hkv h4
    have hsplit :
        (List.intercalate ['|']
          ((p :: rest).map fun kv => kv.1 ++ '=' :: kv.2)).splitOn '|' =
        (p :: rest).map fun kv => kv.1 ++ '=' :: kv.2 :=
      List.splitOn_intercalate ((p :: rest).map fun kv => kv.1 ++ '=' :: kv.2)
        '|' hpieces (by simp)
    have hser :
        ConvertToSeparatedString (p :: rest) '|' =
          List.intercalate ['|'] ((p :: rest).map fun kv => kv.1 ++ '=' :: kv.2) := by
      rw [ConvertToSeparatedString, if_neg (by simp)]
    have hserne :
        List.intercalate ['|'] ((p :: rest).map fun kv => kv.1 ++ '=' :: kv.2) ≠
          [] := by
      intro h0
      rw [h0, List.splitOn_nil] at hsplit
      have hhead : ([] : GoStr) = p.1 ++ '=' :: p.2 := by
        simpa using congrArg (fun l => l.headD []) hsplit
      exact absurd hhead.symm (by simp)
    rw [hser, ConvertToMap, if_neg hserne, hsplit]
    simpa using foldl_parse_fragments (p :: rest) []
      (fun kv hkv => (hk kv hkv).1) (by simpa using hnodup)

/-- Claim C6 (amended): serializing an Entity to wire form and parsing it back
yields the original entity, provided the property keys are pairwise distinct
and contain neither the pair separator nor the key-value separator, and the
property values do not contain the pair separator; a property value containing
the pair separator breaks the round trip. -/
theorem entity_roundTrip :
    ∀ e : Entity, e.properties ≠ [] →
      (e.properties.map Prod.fst).Nodup →
      (∀ kv ∈ e.properties, ('=' : Char) ∉ kv.1 ∧ ('|' : Char) ∉ kv.1) →
      (∀ kv ∈ e.properties, ('|' : Char) ∉ kv.2) →
      BluecatEntity.toEntity (Entity.toBluecatEntity e) = some e := by
  intro e _hne hnodup hk hv
  obtain ⟨i, n, t, ps⟩ := e
  simp only [Entity.toBluecatEntity, BluecatEntity.toEntity]
  simpa using ConvertToMap_ConvertToSeparatedString ps hnodup hk hv

/-- Claim C6 witness: an entity with one clean property survives the wire round
trip unchanged. -/
theorem entity_roundTrip_witness :
    BluecatEntity.toEntity (Entity.toBluecatEntity
      ⟨4, "web".toList, HOSTRECORD, [("env".toList, "prod".toList)]⟩) =
      some ⟨4, "web".toList, HOSTRECORD, [("env".toList, "prod".toList)]⟩ :=
  entity_roundTrip _ (by decide) (by decide) (by decide) (by decide)

/-- Claim C6 counterexample: a property value containing the pipe separator does
not survive the round trip — the single property with value a|b parses back
truncated to a, so the recovered entity differs from the original. -/
theorem entity_roundTrip_cex :
    BluecatEntity.toEntity (Entity.toBluecatEntity
      ⟨1, [], HOSTRECORD, [("k".toList, "a|b".toList)]⟩) =
      some ⟨1, [], HOSTRECORD, [("k".toList, "a".toList)]⟩ ∧
    (⟨1, [], HOSTRECORD, [("k".toList, "a|b".toList)]⟩ : Entity) ≠
      ⟨1, [], HOSTRECORD, [("k".toList, "a".toList)]⟩ := by
  constructor <;> decide

end DnsApi
